import Mathlib

/-!
Shallow embedding of the BattOr trace importer
(src/third_party/traceviewer-js/extras/importer/battor_importer.js)
and of the long-tasks metric (src/unnamed/part_000).

Modelling conventions: JavaScript strings are lists of characters and
JavaScript numbers are exact rationals.  Collaborator objects whose source
is not under src/ (the Model warning log, the device power-series slot,
the clock-sync manager and the histogram builder) are modelled from the
specification, as noted on each definition.
-/

/-- The characters matched by the whitespace class of a JavaScript regular
expression and removed by String.prototype.trim (ASCII subset plus NBSP). -/
def isJsWhitespace (c : Char) : Bool :=
  c == ' ' || c == '\t' || c == '\n' || c == '\r' || c == '\x0b' || c == '\x0c' ||
    c == ' '

/-- String.prototype.trim: drop whitespace from both ends of the line. -/
def trim (l : List Char) : List Char :=
  ((l.dropWhile isJsWhitespace).reverse.dropWhile isJsWhitespace).reverse

/-- Maximal-munch run of decimal digits, returning the run and the rest.
This is how a greedy digit-class-plus behaves inside the data-line regular
expression battorDataLineRE. -/
def takeDigits : List Char → List Char × List Char
  | [] => ([], [])
  | c :: rest =>
    if c.isDigit then
      ((takeDigits rest).1.cons c, (takeDigits rest).2)
    else ([], c :: rest)

/-- One number field of battorDataLineRE without the sign: digits, a dot and
digits, all maximal-munch.  Returns the matched text and the rest of the
line, or none when the field grammar fails. -/
def parseUnsignedNumber (l : List Char) : Option (List Char × List Char) :=
  if (takeDigits l).1.isEmpty then none
  else
    match (takeDigits l).2 with
    | '.' :: r2 =>
      if (takeDigits r2).1.isEmpty then none
      else some ((takeDigits l).1 ++ '.' :: (takeDigits r2).1, (takeDigits r2).2)
    | _ => none

/-- One number field of battorDataLineRE: an optional minus sign followed by
digits, a dot and digits. -/
def parseNumber (l : List Char) : Option (List Char × List Char) :=
  if l.head? = some '-' then
    (parseUnsignedNumber l.tail).map (fun p => ('-' :: p.1, p.2))
  else parseUnsignedNumber l

/-- A mandatory whitespace run (the separator between regex fields);
fails when the line does not start with a whitespace character. -/
def skipWhitespace1 (l : List Char) : Option (List Char) :=
  if (l.takeWhile isJsWhitespace).isEmpty then none
  else some (l.dropWhile isJsWhitespace)

/-- The bracketed sync token at the end of the line: an opening angle
bracket, one or more non-whitespace characters and a closing angle bracket
ending the line.  Returns the token between the brackets. -/
def parseSyncTail (l : List Char) : Option (List Char) :=
  if l.head? = some '<' then
    if l.tail.getLast? = some '>' ∧ l.tail.dropLast ≠ [] ∧
        l.tail.dropLast.all (fun c => !isJsWhitespace c) then
      some l.tail.dropLast
    else none
  else none

/-- The four capture groups of battorDataLineRE: three decimal number
fields and the optional sync id. -/
structure RegexGroups where
  g1 : List Char
  g2 : List Char
  g3 : List Char
  g4 : Option (List Char)
deriving DecidableEq

/-- battorDataLineRE.exec on a whole line: three decimal fields separated
by whitespace, then optionally whitespace and a bracketed sync token,
anchored at both ends of the line. -/
def battorDataLineExec (l : List Char) : Option RegexGroups :=
  match parseNumber l with
  | none => none
  | some (n1, r1) =>
    match skipWhitespace1 r1 with
    | none => none
    | some r2 =>
      match parseNumber r2 with
      | none => none
      | some (n2, r3) =>
        match skipWhitespace1 r3 with
        | none => none
        | some r4 =>
          match parseNumber r4 with
          | none => none
          | some (n3, r5) =>
            match r5 with
            | [] => some ⟨n1, n2, n3, none⟩
            | _ :: _ =>
              match skipWhitespace1 r5 with
              | none => none
              | some r6 =>
                match parseSyncTail r6 with
                | none => none
                | some s => some ⟨n1, n2, n3, some s⟩

/-- Numeric value of a digit run. -/
def digitsVal (ds : List Char) : ℕ :=
  ds.foldl (fun a c => a * 10 + (c.toNat - '0'.toNat)) 0

/-- parseFloat restricted to the strings produced by the number fields of
battorDataLineRE (digits, dot, digits), as an exact rational. -/
def parseUnsignedQ (l : List Char) : ℚ :=
  match (takeDigits l).2 with
  | '.' :: r2 =>
    (digitsVal (takeDigits l).1 : ℚ) +
      (digitsVal (takeDigits r2).1 : ℚ) / (10 : ℚ) ^ (takeDigits r2).1.length
  | _ => (digitsVal (takeDigits l).1 : ℚ)

/-- parseFloat on a possibly negative number field. -/
def parseFloatQ (l : List Char) : ℚ :=
  match l with
  | '-' :: rest => -(parseUnsignedQ rest)
  | _ => parseUnsignedQ l

/-- A sample recorded by a BattOr (the Sample constructor of
battor_importer.js): timestamp, voltage in volts, current in amps and the
optional sync id. -/
structure Sample where
  ts : ℚ
  voltage : ℚ
  current : ℚ
  syncId : Option (List Char)
deriving DecidableEq

/-- The derived power getter: instantaneous power in watts. -/
def Sample.power (s : Sample) : ℚ := s.voltage * s.current

/-- Modelled from the spec: one entry of the Model warning log
(Model.importWarning from model.js is not under src/); each warning is a
kind tag plus a message and is appended to an ordered log. -/
structure ImportWarning where
  kind : List Char
  message : List Char
deriving DecidableEq

def parseErrorKind : List Char := "parse_error".data

def importErrorKind : List Char := "import_error".data

/-- The warning recorded for a line that does not match battorDataLineRE. -/
def unrecognizedLineWarning (line : List Char) : ImportWarning :=
  ⟨parseErrorKind, "Unrecognized line in BattOr trace: ".data ++ line⟩

/-- The warning recorded for a matching line whose voltage or current is
negative. -/
def negativeValueWarning (line : List Char) : ImportWarning :=
  ⟨parseErrorKind,
    String.data "The following line in the BattOr trace has a negative voltage or current, neither of which are allowed: "
      ++ line ++
      String.data ". A common cause of this is that the device is charging while the trace is being recorded."⟩

/-- The warning recorded by importEvents when the device already has a
power series. -/
def powerCounterExistsWarning : ImportWarning :=
  ⟨importErrorKind, "Power counter exists, can not import BattOr power trace.".data⟩

/-- The outcome of processing one raw line inside linesToSamples_: the line
is skipped (blank or comment), produces one warning, or produces one
sample. -/
inductive LineResult where
  | skip
  | warn (w : ImportWarning)
  | sample (s : Sample)
deriving DecidableEq

/-- One iteration of the loop body of linesToSamples_: trim the line, skip
blank lines and comment lines, run battorDataLineRE, reject negative
voltage or current, otherwise build the Sample via parseFloat and the
divide-by-1000 unit conversion. -/
def processLine (raw : List Char) : LineResult :=
  if trim raw = [] then .skip
  else if (trim raw).head? = some '#' then .skip
  else
    match battorDataLineExec (trim raw) with
    | none => .warn (unrecognizedLineWarning (trim raw))
    | some g =>
      if parseFloatQ g.g2 / 1000 < 0 ∨ parseFloatQ g.g3 / 1000 < 0 then
        .warn (negativeValueWarning (trim raw))
      else
        .sample ⟨parseFloatQ g.g1, parseFloatQ g.g2 / 1000,
          parseFloatQ g.g3 / 1000, g.g4⟩

/-- linesToSamples_: fold the loop over the lines, collecting the samples
in input order; the warnings the loop hands to Model.importWarning are
returned alongside, also in input order. -/
def linesToSamples_ : List (List Char) → List Sample × List ImportWarning
  | [] => ([], [])
  | line :: rest =>
    match processLine line with
    | .skip => linesToSamples_ rest
    | .warn w => ((linesToSamples_ rest).1, w :: (linesToSamples_ rest).2)
    | .sample s => (s :: (linesToSamples_ rest).1, (linesToSamples_ rest).2)

/-- String.prototype.split on the newline character, keeping empty
segments, as used by the BattorImporter constructor. -/
def splitOnNewline : List Char → List (List Char)
  | [] => [[]]
  | c :: rest =>
    if c = '\n' then [] :: splitOnNewline rest
    else
      match splitOnNewline rest with
      | [] => [[c]]
      | seg :: segs => (c :: seg) :: segs

/-- The BattorImporter constructor body: split the raw events string into
lines and run linesToSamples_ on them. -/
def battorImporterSamples (events : List Char) : List Sample × List ImportWarning :=
  linesToSamples_ (splitOnNewline events)

/-- The clock domain identifiers used by the importer (tr.model
ClockDomainId); BATTOR is the domain of the BattOr device clock. -/
inductive ClockDomainId where
  | BATTOR
  | LINUX_CLOCK_MONOTONIC
deriving DecidableEq

/-- Modelled from the spec: one call to
clockSyncManager.addClockSyncMarker (model.js is not under src/) — the
manager records the domain, the opaque sync id and the local timestamp. -/
structure ClockSyncMarker where
  domain : ClockDomainId
  syncId : List Char
  ts : ℚ
deriving DecidableEq

/-- importClockSyncMarkers: walk the parsed samples in order and call
addClockSyncMarker for every sample whose syncId is truthy (in JavaScript
an absent id and the empty string are falsy), passing the BATTOR domain,
the sync id and the local sample timestamp.  The list of calls made is
returned. -/
def importClockSyncMarkers : List Sample → List ClockSyncMarker
  | [] => []
  | s :: rest =>
    match s.syncId with
    | some id =>
      if id = [] then importClockSyncMarkers rest
      else ⟨ClockDomainId.BATTOR, id, s.ts⟩ :: importClockSyncMarkers rest
    | none => importClockSyncMarkers rest

/-- Modelled from the spec: one sample of the device power series
(model/power_series.js is not under src/); addPowerSample stores the
transformed timestamp and the power value. -/
structure PowerSample where
  ts : ℚ
  power : ℚ
deriving DecidableEq

/-- Modelled from the spec: the power series is an append-only sequence of
power samples owned by the device. -/
structure TrPowerSeries where
  samples : List PowerSample
deriving DecidableEq

/-- Modelled from the spec: the slice of the Model state that importEvents
touches — the device power-series slot and the ordered import warning
log. -/
structure Model where
  powerSeries : Option TrPowerSeries
  warnings : List ImportWarning
deriving DecidableEq

/-- importEvents: when the device already has a power series, record one
import_error warning and return; otherwise install a fresh power series on
the device and append one power sample per parsed sample, in order, with
the model-time transform applied to the timestamp and the derived power as
the value.  The transformer obtained from
clockSyncManager.getModelTimeTransformer(BATTOR) is passed as a
parameter. -/
def importEvents (m : Model) (modelTimeTransformer : ℚ → ℚ)
    (samples : List Sample) : Model :=
  if m.powerSeries.isSome then
    { m with warnings := m.warnings ++ [powerCounterExistsWarning] }
  else
    { m with
        powerSeries :=
          some ⟨samples.map (fun s => ⟨modelTimeTransformer s.ts, s.power⟩)⟩ }

/-- A JavaScript value handed to the static canImport test; only strings
carry content that matters to it (String wrapper objects are folded into
the str case). -/
inductive JsValue where
  | str (s : List Char)
  | num (q : ℚ)
  | bool (b : Bool)
  | null
  | undefined
  | obj
deriving DecidableEq

/-- The magic header token matched by battorHeaderLineRE, anchored at the
start of the input. -/
def battorHeaderLine : List Char := "# BattOr".data

/-- BattorImporter.canImport: false for every non-string value, otherwise
the battorHeaderLineRE test, which holds exactly when the input starts
with the magic header token. -/
def canImport (events : JsValue) : Bool :=
  match events with
  | .str s => battorHeaderLine.isPrefixOf s
  | _ => false

/-- The long-task threshold LONG_TASK_MS of the long-tasks metric. -/
def LONG_TASK_MS : ℚ := 50

/-- The ceiling LONGEST_TASK_MS of the long-tasks histogram domain. -/
def LONGEST_TASK_MS : ℚ := 1000

/-- A slice of the trace model as consumed by the metric: start, duration
(the end is start plus duration) and the stable provenance id. -/
structure Slice where
  start : ℚ
  duration : ℚ
  stableId : ℕ
deriving DecidableEq

/-- The end of a slice interval (the slice.end getter). -/
def Slice.endTime (s : Slice) : ℚ := s.start + s.duration

/-- A thread, reduced to what the metric reads: its top-level slices. -/
structure Thread where
  topLevelSlices : List Slice
deriving DecidableEq

/-- Modelled from the spec: an explicit numeric range (tr.b.Range is not
under src/). -/
structure TrRange where
  min : ℚ
  max : ℚ
deriving DecidableEq

/-- Modelled from the spec: Range.intersectsExplicitRangeExclusive — the
open interval of the range intersects the open interval given, and two
intervals that merely touch at a boundary do not intersect. -/
def intersectsExplicitRangeExclusive (r : TrRange) (lo hi : ℚ) : Bool :=
  decide (r.min < hi) && decide (lo < r.max)

/-- iterateLongTopLevelTasksOnThreadInRange: the callback runs, in order,
on every top-level slice of the thread that intersects the optional range
and whose duration is not below LONG_TASK_MS; the list of slices the
callback receives is returned. -/
def iterateLongTopLevelTasksOnThreadInRange (thread : Thread)
    (optRange : Option TrRange) : List Slice :=
  thread.topLevelSlices.filter (fun slice =>
    (match optRange with
      | some r => intersectsExplicitRangeExclusive r slice.start slice.endTime
      | none => true)
    && !decide (slice.duration < LONG_TASK_MS))

/-- Modelled from the spec: a renderer helper of ChromeModelHelper
(chrome_model_helper.js is not under src/); its main thread may be
absent. -/
structure RendererHelper where
  mainThread : Option Thread
deriving DecidableEq

/-- The model as consumed by the long-tasks metric: the renderer helpers
of its ChromeModelHelper. -/
structure ChromeModel where
  rendererHelpers : List RendererHelper
deriving DecidableEq

/-- iterateRendererMainThreads: the callback runs on the main thread of
every renderer helper that has one. -/
def iterateRendererMainThreads (model : ChromeModel) : List Thread :=
  model.rendererHelpers.filterMap (fun rh => rh.mainThread)

/-- Modelled from the spec: the configuration of a linear numeric builder
(value/numeric.js is not under src/) — unit aside: the explicit range and
the bucket count. -/
structure NumericBuilderSpec where
  min : ℚ
  max : ℚ
  numBuckets : ℕ
deriving DecidableEq

/-- LONG_TASK_NUMERIC_BUILDER: a linear builder over the range from
LONG_TASK_MS to LONGEST_TASK_MS with 50 buckets. -/
def LONG_TASK_NUMERIC_BUILDER : NumericBuilderSpec :=
  ⟨LONG_TASK_MS, LONGEST_TASK_MS, 50⟩

/-- Modelled from the spec: a numeric histogram instance — its builder
configuration and the ordered list of (value, provenance id) pairs its
add method received. -/
structure Numeric where
  spec : NumericBuilderSpec
  addedValues : List (ℚ × ℕ)
deriving DecidableEq

/-- NumericBuilder.build: a fresh, empty histogram instance. -/
def NumericBuilderSpec.build (b : NumericBuilderSpec) : Numeric := ⟨b, []⟩

/-- Numeric.add: append one (value, provenance id) pair. -/
def Numeric.add (n : Numeric) (v : ℚ) (id : ℕ) : Numeric :=
  ⟨n.spec, n.addedValues ++ [(v, id)]⟩

/-- A named value written to the metric output sink. -/
structure NumericValue where
  name : List Char
  numeric : Numeric
deriving DecidableEq

/-- longTasksMetric: build one histogram from LONG_TASK_NUMERIC_BUILDER,
run the long-top-level-task iteration over every renderer main thread
adding each duration tagged with its stable id, and emit the result under
the name "long tasks". -/
def longTasksMetric (model : ChromeModel) : NumericValue :=
  ⟨"long tasks".data,
    (iterateRendererMainThreads model).foldl
      (fun num thread =>
        (iterateLongTopLevelTasksOnThreadInRange thread none).foldl
          (fun num2 task => num2.add task.duration task.stableId) num)
      LONG_TASK_NUMERIC_BUILDER.build⟩

/-- The end-to-end input of the specification scenario. -/
def endToEndInput : List Char :=
  "# BattOr\n0.0 1000.0 500.0\n1.0 1000.0 500.0 <sync1>\n".data

/-- A renderer model with one main thread holding a single top-level slice
of duration exactly LONG_TASK_MS. -/
def c4BoundaryModel : ChromeModel := ⟨[⟨some ⟨[⟨0, 50, 7⟩]⟩⟩]⟩

/-- A well-formed BattOr trace whose accepted samples are not in
non-decreasing timestamp order. -/
def c8Input : List Char := "# BattOr\n5.0 1000.0 500.0\n1.0 1000.0 500.0\n".data

/-- The model obtained by importing c8Input into an empty model with the
identity model-time transform. -/
def c8ImportedModel : Model :=
  importEvents ⟨none, []⟩ (fun t => t) (battorImporterSamples c8Input).1

/-! Helper lemmas about the data-line grammar. -/

theorem battorDataLineExec_nil : battorDataLineExec [] = none := by
  with_unfolding_all rfl

theorem battorDataLineExec_hash (t : List Char) :
    battorDataLineExec ('#' :: t) = none := by
  have hdig : ('#' : Char).isDigit = false := by decide
  have hd : takeDigits ('#' :: t) = ([], '#' :: t) := by
    simp only [takeDigits]
    rw [hdig]
    simp
  have hnotdash : ¬(('#' :: t).head? = some '-') := by
    simp only [List.head?_cons, Option.some.injEq]
    decide
  have hu : parseUnsignedNumber ('#' :: t) = none := by
    unfold parseUnsignedNumber
    rw [hd]
    simp
  have hp : parseNumber ('#' :: t) = none := by
    unfold parseNumber
    rw [if_neg hnotdash, hu]
  unfold battorDataLineExec
  rw [hp]

theorem battorDataLineExec_some_ne_nil {l : List Char} {g : RegexGroups}
    (h : battorDataLineExec l = some g) : l ≠ [] := by
  intro h0
  rw [h0, battorDataLineExec_nil] at h
  exact Option.noConfusion h

theorem battorDataLineExec_some_head {l : List Char} {g : RegexGroups}
    (h : battorDataLineExec l = some g) : ¬(l.head? = some '#') := by
  intro hh
  cases l with
  | nil => exact Option.noConfusion hh
  | cons c t =>
    have hc : c = '#' := by
      simpa using hh
    rw [hc, battorDataLineExec_hash t] at h
    exact Option.noConfusion h

/-- The reduction of processLine on a line whose trimmed text matches
battorDataLineRE. -/
theorem processLine_of_exec_some (raw : List Char) (g : RegexGroups)
    (h : battorDataLineExec (trim raw) = some g) :
    processLine raw =
      (if parseFloatQ g.g2 / 1000 < 0 ∨ parseFloatQ g.g3 / 1000 < 0 then
        LineResult.warn (negativeValueWarning (trim raw))
      else
        LineResult.sample ⟨parseFloatQ g.g1, parseFloatQ g.g2 / 1000,
          parseFloatQ g.g3 / 1000, g.g4⟩) := by
  unfold processLine
  rw [if_neg (battorDataLineExec_some_ne_nil h),
    if_neg (battorDataLineExec_some_head h), h]

/-- The reduction of processLine on a non-blank, non-comment line whose
trimmed text does not match battorDataLineRE. -/
theorem processLine_of_exec_none (raw : List Char)
    (h0 : ¬(trim raw = [])) (h1 : ¬((trim raw).head? = some '#'))
    (h : battorDataLineExec (trim raw) = none) :
    processLine raw = LineResult.warn (unrecognizedLineWarning (trim raw)) := by
  unfold processLine
  rw [if_neg h0, if_neg h1, h]

theorem linesToSamples_cons_skip {line : List Char} {rest : List (List Char)}
    (h : processLine line = LineResult.skip) :
    linesToSamples_ (line :: rest) = linesToSamples_ rest := by
  simp only [linesToSamples_, h]

theorem linesToSamples_cons_warn {line : List Char} {w : ImportWarning}
    {rest : List (List Char)} (h : processLine line = LineResult.warn w) :
    linesToSamples_ (line :: rest) =
      ((linesToSamples_ rest).1, w :: (linesToSamples_ rest).2) := by
  simp only [linesToSamples_, h]

theorem linesToSamples_cons_sample {line : List Char} {s : Sample}
    {rest : List (List Char)} (h : processLine line = LineResult.sample s) :
    linesToSamples_ (line :: rest) =
      (s :: (linesToSamples_ rest).1, (linesToSamples_ rest).2) := by
  simp only [linesToSamples_, h]

/-- The trimmed line is a contiguous piece of the raw line. -/
theorem trim_infix (l : List Char) : ∃ a b, l = a ++ trim l ++ b := by
  refine ⟨l.takeWhile isJsWhitespace,
    ((l.dropWhile isJsWhitespace).reverse.takeWhile isJsWhitespace).reverse, ?_⟩
  conv_lhs => rw [← List.takeWhile_append_dropWhile isJsWhitespace l]
  rw [List.append_assoc]
  congr 1
  unfold trim
  conv_lhs =>
    rw [← List.reverse_reverse (l.dropWhile isJsWhitespace),
      ← List.takeWhile_append_dropWhile isJsWhitespace
        (l.dropWhile isJsWhitespace).reverse,
      List.reverse_append]

/-! Helper lemmas about sync ids: the regular expression only captures a
non-empty sync token. -/

theorem parseSyncTail_ne_nil {l s : List Char} (h : parseSyncTail l = some s) :
    s ≠ [] := by
  unfold parseSyncTail at h
  split at h
  · split at h
    · rename_i hc
      cases h
      exact hc.2.1
    · exact Option.noConfusion h
  · exact Option.noConfusion h

theorem battorDataLineExec_g4_ne_nil {l : List Char} {g : RegexGroups}
    (h : battorDataLineExec l = some g) :
    ∀ s, g.g4 = some s → s ≠ [] := by
  unfold battorDataLineExec at h
  split at h
  · exact Option.noConfusion h
  · split at h
    · exact Option.noConfusion h
    · split at h
      · exact Option.noConfusion h
      · split at h
        · exact Option.noConfusion h
        · split at h
          · exact Option.noConfusion h
          · split at h
            · cases h
              intro s hs
              exact Option.noConfusion hs
            · split at h
              · exact Option.noConfusion h
              · split at h
                · exact Option.noConfusion h
                · rename_i hsync
                  cases h
                  intro s hs
                  cases hs
                  exact parseSyncTail_ne_nil hsync

theorem processLine_sample_syncId {raw : List Char} {s : Sample}
    (h : processLine raw = LineResult.sample s) :
    ∀ id, s.syncId = some id → id ≠ [] := by
  unfold processLine at h
  split at h
  · exact LineResult.noConfusion h
  · split at h
    · exact LineResult.noConfusion h
    · split at h
      · exact LineResult.noConfusion h
      · rename_i hexec
        split at h
        · exact LineResult.noConfusion h
        · cases h
          exact battorDataLineExec_g4_ne_nil hexec

/-- Every sample produced by linesToSamples_ has a truthy (non-empty) sync
id or none at all. -/
theorem linesToSamples_syncId (lines : List (List Char)) :
    ∀ s ∈ (linesToSamples_ lines).1, ∀ id, s.syncId = some id → id ≠ [] := by
  induction lines with
  | nil =>
    intro s hs
    simp only [linesToSamples_] at hs
    exact absurd hs (List.not_mem_nil s)
  | cons line rest ih =>
    intro s hs
    cases hp : processLine line with
    | skip =>
      rw [linesToSamples_cons_skip hp] at hs
      exact ih s hs
    | warn w =>
      rw [linesToSamples_cons_warn hp] at hs
      exact ih s hs
    | sample s0 =>
      rw [linesToSamples_cons_sample hp] at hs
      rcases List.mem_cons.mp hs with h0 | h0
      · cases h0
        exact processLine_sample_syncId hp
      · exact ih s h0

/-- importClockSyncMarkers registers exactly one marker per sample that
carries a sync id, provided no sample carries the (unreachable) empty sync
id. -/
theorem importClockSyncMarkers_eq_filterMap (samples : List Sample)
    (hs : ∀ s ∈ samples, ∀ id, s.syncId = some id → id ≠ []) :
    importClockSyncMarkers samples =
      samples.filterMap (fun s =>
        s.syncId.map (fun id => ⟨ClockDomainId.BATTOR, id, s.ts⟩)) := by
  induction samples with
  | nil => rfl
  | cons s rest ih =>
    have hrest : ∀ x ∈ rest, ∀ id, x.syncId = some id → id ≠ [] :=
      fun x hx => hs x (List.mem_cons_of_mem s hx)
    cases hsy : s.syncId with
    | none =>
      simp only [importClockSyncMarkers, hsy, List.filterMap_cons,
        Option.map_none']
      exact ih hrest
    | some id =>
      have hne : id ≠ [] := hs s (List.mem_cons_self s rest) id hsy
      simp only [importClockSyncMarkers, hsy, List.filterMap_cons,
        Option.map_some', if_neg hne]
      rw [ih hrest]

/-! Helper lemmas about the long-tasks metric. -/

theorem foldl_add_addedValues (l : List Slice) (n : Numeric) :
    l.foldl (fun num task => num.add task.duration task.stableId) n =
      ⟨n.spec, n.addedValues ++ l.map (fun s => (s.duration, s.stableId))⟩ := by
  induction l generalizing n with
  | nil => simp
  | cons s rest ih =>
    rw [List.foldl_cons, ih]
    simp [Numeric.add]

theorem foldl_threads_addedValues (ts : List Thread) (n : Numeric) :
    ts.foldl
      (fun num thread =>
        (iterateLongTopLevelTasksOnThreadInRange thread none).foldl
          (fun num2 task => num2.add task.duration task.stableId) num) n =
      ⟨n.spec,
        n.addedValues ++
          ts.flatMap (fun t =>
            (iterateLongTopLevelTasksOnThreadInRange t none).map
              (fun s => (s.duration, s.stableId)))⟩ := by
  induction ts generalizing n with
  | nil => simp
  | cons t rest ih =>
    rw [List.foldl_cons, foldl_add_addedValues, ih]
    simp

/-- With no range restriction the iteration keeps exactly the top-level
slices whose duration is at least LONG_TASK_MS. -/
theorem iterate_none_eq_filter (t : Thread) :
    iterateLongTopLevelTasksOnThreadInRange t none =
      t.topLevelSlices.filter (fun s => decide (LONG_TASK_MS ≤ s.duration)) := by
  unfold iterateLongTopLevelTasksOnThreadInRange
  apply List.filter_congr
  intro s _
  rw [Bool.true_and, ← decide_not, decide_eq_decide]
  exact not_lt

/-! Helper lemmas about importEvents. -/

theorem importEvents_of_isSome (m : Model) (xf : ℚ → ℚ)
    (samples : List Sample) (h : m.powerSeries.isSome = true) :
    importEvents m xf samples =
      { m with warnings := m.warnings ++ [powerCounterExistsWarning] } := by
  unfold importEvents
  rw [if_pos h]

theorem importEvents_of_none (m : Model) (xf : ℚ → ℚ)
    (samples : List Sample) (h : m.powerSeries = none) :
    importEvents m xf samples =
      { m with
          powerSeries :=
            some ⟨samples.map (fun s => ⟨xf s.ts, s.power⟩)⟩ } := by
  unfold importEvents
  rw [if_neg (by rw [h]; simp)]

/-! The claims. -/

/-- C1: every input line whose trimmed text matches the data-line grammar
with non-negative second and third fields yields exactly one Sample with
voltage = field2 / 1000 and current = field3 / 1000, whose derived power
is voltage times current; the end-to-end input yields exactly two samples
of power one half each and zero import warnings. -/
theorem C1_matching_line_yields_sample :
    (∀ (line : List Char) (g : RegexGroups) (rest : List (List Char)),
      battorDataLineExec (trim line) = some g →
      0 ≤ parseFloatQ g.g2 → 0 ≤ parseFloatQ g.g3 →
      processLine line =
        LineResult.sample ⟨parseFloatQ g.g1, parseFloatQ g.g2 / 1000,
          parseFloatQ g.g3 / 1000, g.g4⟩ ∧
      Sample.power ⟨parseFloatQ g.g1, parseFloatQ g.g2 / 1000,
          parseFloatQ g.g3 / 1000, g.g4⟩ =
        (parseFloatQ g.g2 / 1000) * (parseFloatQ g.g3 / 1000) ∧
      linesToSamples_ (line :: rest) =
        (⟨parseFloatQ g.g1, parseFloatQ g.g2 / 1000, parseFloatQ g.g3 / 1000,
            g.g4⟩ :: (linesToSamples_ rest).1,
          (linesToSamples_ rest).2)) ∧
    (battorImporterSamples endToEndInput).1.map Sample.power = [1/2, 1/2] ∧
    (battorImporterSamples endToEndInput).2 = [] := by
  refine ⟨?_, by with_unfolding_all rfl, by with_unfolding_all rfl⟩
  intro line g rest hex h2 h3
  have hv : ¬(parseFloatQ g.g2 / 1000 < 0 ∨ parseFloatQ g.g3 / 1000 < 0) := by
    push_neg
    exact ⟨div_nonneg h2 (by norm_num), div_nonneg h3 (by norm_num)⟩
  have hproc : processLine line =
      LineResult.sample ⟨parseFloatQ g.g1, parseFloatQ g.g2 / 1000,
        parseFloatQ g.g3 / 1000, g.g4⟩ := by
    rw [processLine_of_exec_some line g hex, if_neg hv]
  exact ⟨hproc, rfl, linesToSamples_cons_sample hproc⟩

/-- C1 witness: the general part of C1 evaluated on a concrete matching
line. -/
theorem C1_witness :
    processLine "0.0 1000.0 500.0".data =
      LineResult.sample ⟨0, 1, 1/2, none⟩ := by
  have h := (C1_matching_line_yields_sample.1 "0.0 1000.0 500.0".data
    ⟨"0.0".data, "1000.0".data, "500.0".data, none⟩ []
    (by with_unfolding_all rfl)
    (by with_unfolding_all decide)
    (by with_unfolding_all decide)).1
  rw [h]
  with_unfolding_all rfl

/-- C2: every non-blank, non-comment line that does not match the
data-line grammar produces exactly one parse warning carrying the
offending (trimmed) line text, zero samples, and leaves the processing of
the remaining lines unchanged. -/
theorem C2_unmatched_line_warns :
    ∀ (line : List Char) (rest : List (List Char)),
      ¬(trim line = []) → ¬((trim line).head? = some '#') →
      battorDataLineExec (trim line) = none →
      processLine line = LineResult.warn (unrecognizedLineWarning (trim line)) ∧
      (unrecognizedLineWarning (trim line)).message =
        "Unrecognized line in BattOr trace: ".data ++ trim line ∧
      (∃ a b, line = a ++ trim line ++ b) ∧
      linesToSamples_ (line :: rest) =
        ((linesToSamples_ rest).1,
          unrecognizedLineWarning (trim line) :: (linesToSamples_ rest).2) := by
  intro line rest h0 h1 h
  have hproc := processLine_of_exec_none line h0 h1 h
  exact ⟨hproc, rfl, trim_infix line, linesToSamples_cons_warn hproc⟩

/-- C2 witness: C2 evaluated on a concrete malformed line. -/
theorem C2_witness :
    linesToSamples_ ["bogus".data] =
      ([], [unrecognizedLineWarning "bogus".data]) := by
  have h := C2_unmatched_line_warns "bogus".data []
    (by with_unfolding_all decide) (by with_unfolding_all decide)
    (by with_unfolding_all rfl)
  rw [h.2.2.2]
  with_unfolding_all rfl

/-- C3: every line that matches the data-line grammar but carries a
negative second or third field produces exactly one warning and no sample,
and the remaining lines are processed unchanged. -/
theorem C3_negative_value_warns :
    ∀ (line : List Char) (g : RegexGroups) (rest : List (List Char)),
      battorDataLineExec (trim line) = some g →
      parseFloatQ g.g2 < 0 ∨ parseFloatQ g.g3 < 0 →
      processLine line = LineResult.warn (negativeValueWarning (trim line)) ∧
      linesToSamples_ (line :: rest) =
        ((linesToSamples_ rest).1,
          negativeValueWarning (trim line) :: (linesToSamples_ rest).2) := by
  intro line g rest hex hneg
  have hv : parseFloatQ g.g2 / 1000 < 0 ∨ parseFloatQ g.g3 / 1000 < 0 := by
    rcases hneg with h | h
    · exact Or.inl (div_neg_of_neg_of_pos h (by norm_num))
    · exact Or.inr (div_neg_of_neg_of_pos h (by norm_num))
  have hproc : processLine line =
      LineResult.warn (negativeValueWarning (trim line)) := by
    rw [processLine_of_exec_some line g hex, if_pos hv]
  exact ⟨hproc, linesToSamples_cons_warn hproc⟩

/-- C3 witness: C3 evaluated on a concrete line with a negative voltage
field. -/
theorem C3_witness :
    linesToSamples_ ["0.0 -1.0 1.0".data] =
      ([], [negativeValueWarning "0.0 -1.0 1.0".data]) := by
  have h := C3_negative_value_warns "0.0 -1.0 1.0".data
    ⟨"0.0".data, "-1.0".data, "1.0".data, none⟩ []
    (by with_unfolding_all rfl)
    (Or.inl (by with_unfolding_all decide))
  rw [h.2]
  with_unfolding_all rfl

/-- C4 counterexample: a top-level slice of duration exactly
LONG_TASK_MS = 50 does not exceed the threshold, yet the metric
accumulates it — the code keeps every slice whose duration is not below
the threshold. -/
theorem C4_counterexample :
    (longTasksMetric c4BoundaryModel).numeric.addedValues = [(50, 7)] ∧
    ¬ LONG_TASK_MS < (50 : ℚ) := by
  refine ⟨by with_unfolding_all rfl, ?_⟩
  unfold LONG_TASK_MS
  norm_num

/-- C4 (amended): the long-tasks metric accumulates into its histogram
exactly the top-level slices of the renderer main threads whose duration
is at least the 50-unit threshold (a slice of exactly 50 is included),
and the histogram domain runs from the 50-unit threshold to the 1000-unit
ceiling. -/
theorem C4_amended_long_tasks :
    ∀ model : ChromeModel,
      (longTasksMetric model).numeric.addedValues =
        (iterateRendererMainThreads model).flatMap (fun t =>
          (t.topLevelSlices.filter
            (fun s => decide (LONG_TASK_MS ≤ s.duration))).map
            (fun s => (s.duration, s.stableId))) ∧
      (longTasksMetric model).numeric.spec =
        ⟨LONG_TASK_MS, LONGEST_TASK_MS, 50⟩ ∧
      (longTasksMetric model).name = "long tasks".data := by
  intro model
  refine ⟨?_, ?_, rfl⟩
  · unfold longTasksMetric
    rw [foldl_threads_addedValues]
    simp only [NumericBuilderSpec.build, List.nil_append, iterate_none_eq_filter]
  · unfold longTasksMetric
    rw [foldl_threads_addedValues]
    rfl

/-- C4 witness: the amended C4 on the scenario of the specification —
durations 100 and 60 are accumulated, duration 40 is not. -/
theorem C4_amended_witness :
    (longTasksMetric
      ⟨[⟨some ⟨[⟨0, 100, 1⟩, ⟨100, 60, 2⟩, ⟨160, 40, 3⟩]⟩⟩]⟩).numeric.addedValues =
      [(100, 1), (60, 2)] := by
  rw [(C4_amended_long_tasks
    ⟨[⟨some ⟨[⟨0, 100, 1⟩, ⟨100, 60, 2⟩, ⟨160, 40, 3⟩]⟩⟩]⟩).1]
  with_unfolding_all rfl

/-- C5: when the device already has a power series, importEvents records
exactly one import_error warning, leaves the existing power series
untouched and appends nothing to it. -/
theorem C5_conflicting_source_refused :
    ∀ (m : Model) (xf : ℚ → ℚ) (samples : List Sample) (ps : TrPowerSeries),
      m.powerSeries = some ps →
      (importEvents m xf samples).powerSeries = some ps ∧
      (importEvents m xf samples).warnings =
        m.warnings ++ [powerCounterExistsWarning] := by
  intro m xf samples ps hps
  have h := importEvents_of_isSome m xf samples (by rw [hps]; rfl)
  exact ⟨by rw [h]; exact hps, by rw [h]⟩

/-- C5 witness: C5 on a concrete model that already carries a power
series. -/
theorem C5_witness :
    (importEvents ⟨some ⟨[⟨3, 4⟩]⟩, []⟩ (fun t => t) [⟨1, 2, 3, none⟩]).powerSeries =
      some ⟨[⟨3, 4⟩]⟩ ∧
    (importEvents ⟨some ⟨[⟨3, 4⟩]⟩, []⟩ (fun t => t) [⟨1, 2, 3, none⟩]).warnings =
      [powerCounterExistsWarning] :=
  C5_conflicting_source_refused ⟨some ⟨[⟨3, 4⟩]⟩, []⟩ (fun t => t)
    [⟨1, 2, 3, none⟩] ⟨[⟨3, 4⟩]⟩ rfl

/-- C6: importClockSyncMarkers registers exactly one marker per parsed
sample that carries a sync id — the BATTOR domain, the sync id and the
untransformed local timestamp — and nothing for the other samples; on the
end-to-end input exactly one marker is registered, for sync1 at local
time 1. -/
theorem C6_sync_markers :
    (∀ lines : List (List Char),
      importClockSyncMarkers (linesToSamples_ lines).1 =
        (linesToSamples_ lines).1.filterMap (fun s =>
          s.syncId.map (fun id => ⟨ClockDomainId.BATTOR, id, s.ts⟩))) ∧
    importClockSyncMarkers (battorImporterSamples endToEndInput).1 =
      [⟨ClockDomainId.BATTOR, "sync1".data, 1⟩] := by
  constructor
  · intro lines
    exact importClockSyncMarkers_eq_filterMap _ (linesToSamples_syncId lines)
  · with_unfolding_all rfl

/-- C7: on a model with no power series, importEvents installs a power
series holding exactly one power sample per parsed sample, in input
order, with the transformed timestamp and the derived power, and records
no warning. -/
theorem C7_transforms_and_appends :
    ∀ (m : Model) (xf : ℚ → ℚ) (samples : List Sample),
      m.powerSeries = none →
      (importEvents m xf samples).powerSeries =
        some ⟨samples.map (fun s => ⟨xf s.ts, s.power⟩)⟩ ∧
      (importEvents m xf samples).warnings = m.warnings := by
  intro m xf samples h
  have h1 := importEvents_of_none m xf samples h
  exact ⟨by rw [h1], by rw [h1]⟩

/-- C7 witness: C7 on a concrete sample and a shifting transform. -/
theorem C7_witness :
    (importEvents ⟨none, []⟩ (fun t => t + 10) [⟨1, 2, 3, none⟩]).powerSeries =
      some ⟨[⟨11, 6⟩]⟩ := by
  have h := (C7_transforms_and_appends ⟨none, []⟩ (fun t => t + 10)
    [⟨1, 2, 3, none⟩] rfl).1
  rw [h]
  with_unfolding_all rfl

/-- C8 counterexample: the importer accepts, without any warning, a trace
whose samples are not in timestamp order, and feeds the power series out
of order — the appended model timestamps 5 then 1 are not
non-decreasing. -/
theorem C8_counterexample :
    (battorImporterSamples c8Input).2 = [] ∧
    c8ImportedModel.powerSeries = some ⟨[⟨5, 1/2⟩, ⟨1, 1/2⟩]⟩ ∧
    ¬ List.Chain' (· ≤ ·)
      (([⟨5, 1/2⟩, ⟨1, 1/2⟩] : List PowerSample).map PowerSample.ts) := by
  refine ⟨by with_unfolding_all rfl, by with_unfolding_all rfl, ?_⟩
  intro hch
  simp only [List.map_cons, List.map_nil, List.chain'_cons] at hch
  exact absurd hch.1 (by norm_num [PowerSample.ts])

/-- C8 (amended): importEvents appends one power sample per accepted
sample, preserving input order; the appended model timestamps are
non-decreasing whenever the accepted samples arrive in non-decreasing
local-timestamp order and the model-time transform is monotone.  The
importer itself neither checks nor restores ordering. -/
theorem C8_amended_monotone :
    ∀ (m : Model) (xf : ℚ → ℚ) (samples : List Sample) (ps : TrPowerSeries),
      m.powerSeries = none →
      (∀ a b : ℚ, a ≤ b → xf a ≤ xf b) →
      List.Chain' (· ≤ ·) (samples.map Sample.ts) →
      (importEvents m xf samples).powerSeries = some ps →
      List.Chain' (· ≤ ·) (ps.samples.map PowerSample.ts) := by
  intro m xf samples ps hnone hmono hsorted hps
  rw [importEvents_of_none m xf samples hnone] at hps
  injection hps with hps
  subst hps
  have hmap : ((samples.map (fun s => (⟨xf s.ts, s.power⟩ : PowerSample))).map
      PowerSample.ts) = (samples.map Sample.ts).map xf := by
    simp only [List.map_map]
    rfl
  show List.Chain' (· ≤ ·)
    ((samples.map (fun s => (⟨xf s.ts, s.power⟩ : PowerSample))).map
      PowerSample.ts)
  rw [hmap, List.chain'_map]
  exact List.Chain'.imp (fun a b hab => hmono a b hab) hsorted

/-- C8 witness: the amended C8 on a concrete sorted input. -/
theorem C8_amended_witness :
    List.Chain' (· ≤ ·)
      ((TrPowerSeries.mk [⟨1, 1⟩, ⟨2, 1⟩]).samples.map PowerSample.ts) := by
  refine C8_amended_monotone ⟨none, []⟩ (fun t => t)
    [⟨1, 1, 1, none⟩, ⟨2, 1, 1, none⟩] ⟨[⟨1, 1⟩, ⟨2, 1⟩]⟩
    rfl (fun a b h => h) ?_ (by with_unfolding_all rfl)
  simp only [List.map_cons, List.map_nil, List.chain'_cons,
    List.chain'_singleton, and_true]
  norm_num [Sample.ts]

/-- C9: canImport returns true exactly on the strings that start with the
magic header token; every non-string value yields false, and the test is
a total (never-throwing, effect-free) function. -/
theorem C9_canImport_iff :
    ∀ v : JsValue, canImport v = true ↔
      ∃ s, v = JsValue.str s ∧ battorHeaderLine.isPrefixOf s = true := by
  intro v
  cases v <;> simp [canImport]

/-- C9 witness: C9 on a concrete header-bearing string. -/
theorem C9_witness :
    canImport (JsValue.str "# BattOr rest of trace".data) = true :=
  (C9_canImport_iff (JsValue.str "# BattOr rest of trace".data)).mpr
    ⟨"# BattOr rest of trace".data, rfl, by with_unfolding_all rfl⟩

/-- C10: on a model with no power series, importEvents always installs a
power series — even for zero parsed samples — and any later importEvents
against the resulting model takes the conflicting-data-source path:
it changes nothing and appends exactly one import_error warning. -/
theorem C10_always_installs_series :
    ∀ (m : Model) (xf : ℚ → ℚ) (samples : List Sample),
      m.powerSeries = none →
      (importEvents m xf samples).powerSeries.isSome = true ∧
      (importEvents m xf []).powerSeries = some ⟨[]⟩ ∧
      ∀ (xf2 : ℚ → ℚ) (samples2 : List Sample),
        (importEvents (importEvents m xf samples) xf2 samples2).powerSeries =
          (importEvents m xf samples).powerSeries ∧
        (importEvents (importEvents m xf samples) xf2 samples2).warnings =
          (importEvents m xf samples).warnings ++
            [powerCounterExistsWarning] := by
  intro m xf samples h
  have h1 := importEvents_of_none m xf samples h
  have h0 := importEvents_of_none m xf [] h
  refine ⟨by rw [h1]; rfl, by rw [h0]; rfl, ?_⟩
  intro xf2 samples2
  have hsome : (importEvents m xf samples).powerSeries.isSome = true := by
    rw [h1]; rfl
  have h2 := importEvents_of_isSome (importEvents m xf samples) xf2 samples2
    hsome
  exact ⟨by rw [h2], by rw [h2]⟩

/-- C10 witness: C10 on an empty model and zero samples, followed by a
second import. -/
theorem C10_witness :
    (importEvents ⟨none, []⟩ (fun t => t) []).powerSeries = some ⟨[]⟩ ∧
    (importEvents (importEvents ⟨none, []⟩ (fun t => t) [])
        (fun t => t) []).warnings = [powerCounterExistsWarning] := by
  have h := C10_always_installs_series ⟨none, []⟩ (fun t => t) [] rfl
  refine ⟨h.2.1, ?_⟩
  rw [(h.2.2 (fun t => t) []).2]
  with_unfolding_all rfl
